import Mathlib

/-!
Verification of the batch PLY-to-USDZ conversion orchestrator
(`threedgrut/export/scripts/batch_ply_to_usdz.py`) and of the single-file
converter script (`threedgrut/export/scripts/ply_to_usd.py`).

The scripts are shallowly embedded: `pathlib` paths become lists of
components, the directory tree below the input root becomes an explicit
list of entries, and the external calls (hydra config composition, mkdir,
PLY load, USDZ export) are abstracted by a per-run environment that fixes
which of those calls raise.  Raising Python code becomes `Except`;
code that catches exceptions becomes total functions returning outcome
values, exactly as the scripts convert caught exceptions into
`(success, message)` pairs.
-/

namespace Batch

/-- A filesystem path, as `pathlib` represents it: its list of components
(`Path.parts`).  The scripts only ever join, relativize and re-suffix
paths, so no drive/root special cases are exercised. -/
structure PyPath where
  parts : List String
  deriving DecidableEq, Repr

/-- Python `Path.name`: the final component (empty for an empty path, which no
caller here ever produces). -/
def PyPath.name (p : PyPath) : String :=
  (p.parts.getLast?).getD ""

/-- Python `Path.parent`: the path without its final component. -/
def PyPath.parent (p : PyPath) : PyPath :=
  ⟨p.parts.dropLast⟩

/-- Python `Path.__truediv__` for a relative right operand: concatenation of the
components.  (The scripts only ever join an output root with a relative
path computed by `relative_to`.) -/
def PyPath.join (p q : PyPath) : PyPath :=
  ⟨p.parts ++ q.parts⟩

/-- Python `Path.relative_to(root)`: drops `root`'s components when they are a
leading run of `p`'s components; `pathlib` raises `ValueError` otherwise,
which the embedding reports as `none`. -/
def PyPath.relativeTo (p root : PyPath) : Option PyPath :=
  if root.parts.isPrefixOf p.parts then some ⟨p.parts.drop root.parts.length⟩
  else none

/-- The position of the last '.' in a list of characters, if any. -/
def lastDotIdx : List Char → Option Nat
  | [] => none
  | c :: cs =>
    match lastDotIdx cs with
    | some i => some (i + 1)
    | none => if c = '.' then some 0 else none

/-- Python `PurePath.suffix` of a file name: the substring from the last dot on,
provided that dot is neither the first nor the last character of the
name; the empty string otherwise. -/
def pySuffix (name : String) : String :=
  let cs := name.toList
  match lastDotIdx cs with
  | none => ""
  | some i => if 0 < i ∧ i < cs.length - 1 then String.mk (cs.drop i) else ""

/-- Python `PurePath.with_suffix` on a file name: strips the old suffix (when
there is one) and appends the new suffix. -/
def withSuffixName (name newSuffix : String) : String :=
  let old := pySuffix name
  if old = "" then name ++ newSuffix
  else String.mk (name.toList.take (name.toList.length - old.toList.length)) ++ newSuffix

/-- Python `Path.with_suffix`: replaces the suffix of the final component.
(`pathlib` raises on a path with no name; every path the scripts call
this on has a name.) -/
def PyPath.withSuffix (p : PyPath) (newSuffix : String) : PyPath :=
  ⟨p.parts.dropLast ++ [withSuffixName p.name newSuffix]⟩

/-- Render a path the way `str(Path)` does on POSIX. -/
def PyPath.render (p : PyPath) : String :=
  String.intercalate "/" p.parts

/-- One entry of the tree below the input root: its path relative to that
root and whether it is a regular file. -/
structure FSEntry where
  rel : List String
  isFile : Bool
  deriving DecidableEq, Repr

/-- The directory tree below the input root, listed in the order the
recursive walk of `Path.rglob` visits it. -/
structure DirTree where
  entries : List FSEntry
  deriving DecidableEq, Repr

/-- The file name of a tree entry. -/
def nameOfRel (rel : List String) : String :=
  (rel.getLast?).getD ""

/-- Matching `fnmatch` of the glob pattern `*.ply` against a file name: `*`
matches any (possibly empty) run of characters and `.ply` is literal, so
the pattern matches exactly the names with `.ply` as a suffix.  The
comparison is case-sensitive, as `pathlib` globbing is under the POSIX
path flavour. -/
def matchesStarPly (name : String) : Bool :=
  List.isSuffixOf (String.toList ".ply") (String.toList name)

/-- The spec's reading of the match: compare the suffix after lowering
the name's case. -/
def caseInsensitivePlyMatch (name : String) : Bool :=
  List.isSuffixOf (String.toList ".ply") ((String.toList name).map Char.toLower)

/-- Function `find_ply_files`: iterate `input_dir.rglob("*.ply")` — i.e. every
entry of the tree whose final component matches the pattern — and keep
those that are regular files, appending each full path in walk order. -/
def find_ply_files (input_dir : PyPath) (tree : DirTree) : List PyPath :=
  tree.entries.foldl
    (fun acc e =>
      if matchesStarPly (nameOfRel e.rel) && e.isFile then
        acc ++ [input_dir.join ⟨e.rel⟩]
      else acc)
    []

/-- Dataclass `ConversionTask`: one PLY-to-USDZ conversion with resolved paths. -/
structure ConversionTask where
  input_path : PyPath
  output_path : PyPath
  relative_path : PyPath
  deriving DecidableEq, Repr

/-- Function `create_conversion_tasks`: for each file, `relative_path` is the file
relative to the input root (raising — `none` — if the file is not under
the root, which cannot happen for `find_ply_files` results) and
`output_path` is the output root joined with `relative_path` with its
suffix replaced by `.usdz`. -/
def create_conversion_tasks : List PyPath → PyPath → PyPath → Option (List ConversionTask)
  | [], _, _ => some []
  | f :: fs, input_dir, output_dir =>
    match f.relativeTo input_dir with
    | none => none
    | some rel =>
      match create_conversion_tasks fs input_dir output_dir with
      | none => none
      | some tasks =>
        some (⟨f, output_dir.join (rel.withSuffix ".usdz"), rel⟩ :: tasks)

/-- The relative paths of the tree entries that `find_ply_files` keeps. -/
def plyRels (tree : DirTree) : List (List String) :=
  (tree.entries.filter (fun e => matchesStarPly (nameOfRel e.rel) && e.isFile)).map
    (fun e => e.rel)

/-- The task the planner builds for a discovered file with relative
components `r`: used only to state what the planner produces. -/
def taskOfRel (input_dir output_dir : PyPath) (r : List String) : ConversionTask :=
  ⟨input_dir.join ⟨r⟩, output_dir.join (PyPath.withSuffix ⟨r⟩ ".usdz"), ⟨r⟩⟩

/-- The configuration fields the scripts touch
(`conf.model.progressive_training.max_n_features`,
`conf.model.progressive_training.init_n_features`,
`conf.render.particle_radiance_sph_degree`), flattened. -/
structure Conf where
  max_n_features : Nat
  init_n_features : Nat
  particle_radiance_sph_degree : Nat
  deriving DecidableEq, Repr

/-- Class `MixtureOfGaussians` as the orchestration layer sees it: an opaque
model handle remembering the configuration it was constructed with. -/
structure MixtureOfGaussians where
  conf : Conf
  deriving DecidableEq, Repr

/-- Class `USDZExporter` as the orchestration layer sees it: an opaque
exporter handle. -/
structure USDZExporter where
  deriving DecidableEq, Repr

/-- The behaviour of the external calls during one run, fixed up front:
the base configuration hydra composes, whether composing it raises, and
which `mkdir` / PLY-load / USDZ-export calls raise.  The load oracle also
sees which load variant (reduced zero-order-SH or standard) is invoked. -/
structure ConvEnv where
  configLoadFails : Bool
  baseConf : Conf
  mkdirFails : PyPath → Bool
  loadFails : Bool → PyPath → Bool
  exportFails : PyPath → Bool

/-- Function `load_default_config`: hydra `initialize` + `compose`; raises when
the configuration cannot be loaded. -/
def load_default_config (env : ConvEnv) : Except String Conf :=
  if env.configLoadFails then Except.error "could not load configuration"
  else Except.ok env.baseConf

/-- The `threading.local()` slot of one worker thread.  The script always
stores `model`, `exporter`, `conf` and `force_zero_order_sh` together, so
the `hasattr` pair-check collapses to one optional bundle. -/
structure ThreadLocal where
  cached : Option (MixtureOfGaussians × USDZExporter × Conf × Bool)
  deriving DecidableEq, Repr

/-- The externally visible effects of the scripts: resource
construction, directory creation, a PLY load (with its variant), a USDZ
export, and a dry-run "Would convert" line. -/
inductive Event where
  | constructResources : Event
  | mkdirCall : PyPath → Event
  | loadCall : Bool → PyPath → Event
  | exportCall : PyPath → Event
  | plannedLine : PyPath → PyPath → Event
  deriving DecidableEq, Repr

/-- Is the event the standard (non-reduced) `init_from_ply` load? -/
def Event.isStandardLoad : Event → Bool
  | .loadCall false _ => true
  | _ => false

/-- Is the event a call into the converter capability or a filesystem
write (anything but a dry-run planned line)? -/
def Event.isConversionEffect : Event → Bool
  | .plannedLine _ _ => false
  | _ => true

/-- Function `get_thread_local_objects`: returns the cached
`(model, exporter, conf)` triple when the thread already holds one;
otherwise loads the configuration (which may raise), applies the
zero-order-SH overrides when `force_zero_order_sh` is set, constructs
the model and exporter, caches everything together with the flag, and
returns the new triple.  The event list records whether a construction
happened. -/
def get_thread_local_objects (env : ConvEnv) (force_zero_order_sh : Bool)
    (tl : ThreadLocal) :
    Except String ((MixtureOfGaussians × USDZExporter × Conf) × ThreadLocal × List Event) :=
  match tl.cached with
  | some (m, ex, c, _) => Except.ok ((m, ex, c), tl, [])
  | none =>
    match load_default_config env with
    | Except.error e => Except.error e
    | Except.ok conf0 =>
      let conf := if force_zero_order_sh then
          { conf0 with max_n_features := 0, init_n_features := 0,
                       particle_radiance_sph_degree := 0 }
        else conf0
      let m : MixtureOfGaussians := ⟨conf⟩
      let ex : USDZExporter := ⟨⟩
      Except.ok ((m, ex, conf), ⟨some (m, ex, conf, force_zero_order_sh)⟩,
        [Event.constructResources])

/-- The failure message `convert_single_file` logs and returns. -/
def errMsg (task : ConversionTask) (e : String) : String :=
  "❌ " ++ task.relative_path.render ++ ": " ++ e

/-- The success message `convert_single_file` returns. -/
def okMsg (task : ConversionTask) : String :=
  "✅ " ++ task.relative_path.render ++ " -> " ++ task.output_path.name

/-- Function `convert_single_file`: the whole body — fetching the thread-local
resources, creating the output directory, loading the PLY (reduced or
standard variant by the flag) and exporting the USDZ — runs inside one
`try`/`except Exception`, so any raise is logged and returned as a
`(False, message)` outcome; nothing propagates to the caller.  Returns
the outcome, the worker's thread-local slot after the call, and the
events that occurred. -/
def convert_single_file (env : ConvEnv) (task : ConversionTask)
    (force_zero_order_sh : Bool) (tl : ThreadLocal) :
    (Bool × String) × ThreadLocal × List Event :=
  match get_thread_local_objects env force_zero_order_sh tl with
  | Except.error e => ((false, errMsg task e), tl, [])
  | Except.ok ((_m, _ex, _conf), tl1, ev0) =>
    let outDir := task.output_path.parent
    let ev1 := ev0 ++ [Event.mkdirCall outDir]
    if env.mkdirFails outDir then
      ((false, errMsg task "mkdir failed"), tl1, ev1)
    else
      let ev2 := ev1 ++ [Event.loadCall force_zero_order_sh task.input_path]
      if env.loadFails force_zero_order_sh task.input_path then
        ((false, errMsg task "load failed"), tl1, ev2)
      else
        let ev3 := ev2 ++ [Event.exportCall task.output_path]
        if env.exportFails task.output_path then
          ((false, errMsg task "export failed"), tl1, ev3)
        else
          ((true, okMsg task), tl1, ev3)

/-- Whether a task's conversion succeeds in environment `env`: the
configuration loads (or was already cached — see `tlInv`), and the
task's mkdir, load and export calls all succeed. -/
def taskOutcome (env : ConvEnv) (force_zero_order_sh : Bool)
    (task : ConversionTask) : Bool :=
  !env.configLoadFails && !env.mkdirFails task.output_path.parent &&
    !env.loadFails force_zero_order_sh task.input_path &&
    !env.exportFails task.output_path

/-- Invariant of every thread-local slot reachable from a fresh worker:
while configuration loading fails nothing ever gets cached. -/
def tlInv (env : ConvEnv) (tl : ThreadLocal) : Prop :=
  env.configLoadFails = true → tl.cached = none

/-- The `workers == 1` loop of `main`: convert the tasks in planning
order on the calling thread, threading its thread-local slot, and count
successes and failures.  Returns `(successful, failed)`, the final slot
and the events. -/
def runSequential (env : ConvEnv) (force_zero_order_sh : Bool) :
    List ConversionTask → ThreadLocal → (Nat × Nat) × ThreadLocal × List Event
  | [], tl => ((0, 0), tl, [])
  | t :: ts, tl =>
    let r := convert_single_file env t force_zero_order_sh tl
    let rest := runSequential env force_zero_order_sh ts r.2.1
    (if r.1.1 then (rest.1.1 + 1, rest.1.2) else (rest.1.1, rest.1.2 + 1),
      rest.2.1, r.2.2 ++ rest.2.2)

/-- The outcomes one worker thread produces for the tasks assigned to
it, starting from its own thread-local slot. -/
def workerOutcomes (env : ConvEnv) (force_zero_order_sh : Bool) :
    List ConversionTask → ThreadLocal → List (Bool × String)
  | [], _ => []
  | t :: ts, tl =>
    let r := convert_single_file env t force_zero_order_sh tl
    r.1 :: workerOutcomes env force_zero_order_sh ts r.2.1

/-- What `future.result()` can yield at the scheduler boundary: the
`(success, message)` value `convert_single_file` returned, or an
unexpected raise from the worker machinery. -/
inductive FutureRes where
  | value : Bool × String → FutureRes
  | raised : String → FutureRes
  deriving DecidableEq, Repr

/-- The `as_completed` loop of `main`'s multi-worker branch: one future
per submitted task, consumed in completion order; a returned
`(success, message)` bumps the matching counter and an unexpected raise
is caught and counted as a failure.  Returns `(successful, failed)`. -/
def tallyFutures : List FutureRes → Nat × Nat
  | [] => (0, 0)
  | FutureRes.value (true, _) :: rs =>
    let r := tallyFutures rs
    (r.1 + 1, r.2)
  | FutureRes.value (false, _) :: rs =>
    let r := tallyFutures rs
    (r.1, r.2 + 1)
  | FutureRes.raised _ :: rs =>
    let r := tallyFutures rs
    (r.1, r.2 + 1)

/-- Semantics of an `argparse` `store_true` option: the destination starts at the
parser's default and every occurrence of the flag on the command line
sets it to `True`.  (argparse's unambiguous-prefix abbreviations would
only add further spellings that set the flag; nothing ever clears it.) -/
def parseStoreTrue (dflt : Bool) (flagName : String) (argv : List String) : Bool :=
  argv.foldl (fun acc a => if a = flagName then true else acc) dflt

/-- The `--force_zero_order_sh` option of `batch_ply_to_usdz.main`:
`action="store_true", default=True`. -/
def batchForceFlag (argv : List String) : Bool :=
  parseStoreTrue true "--force_zero_order_sh" argv

/-- The parsed command line of the batch entry point. -/
structure BatchArgs where
  input_dir : PyPath
  output_dir : PyPath
  workers : Nat
  force_zero_order_sh : Bool
  dry_run : Bool

/-- Everything one run of `main` depends on: the parsed arguments, the
state of the filesystem at the input root, the behaviour of the external
calls, and — for the multi-worker branch — the results the futures
deliver in completion order (one per submitted task; that
`as_completed` yields every future exactly once is a hypothesis of the
theorems below). -/
structure World where
  args : BatchArgs
  inputExists : Bool
  inputIsDir : Bool
  tree : DirTree
  env : ConvEnv
  futureResults : List ConversionTask → List FutureRes

/-- What one run of `main` produces: the process exit code, the summary
block if the run reaches it (total, successful, failed), and the events
logged/performed on the main thread. -/
structure MainResult where
  exitCode : Nat
  summary : Option (Nat × Nat × Nat)
  events : List Event
  deriving DecidableEq, Repr

/-- The dry-run loop of `main`: one
`Would convert: relative_path -> output_path.relative_to(output_dir)`
line per task, in planning order; `relative_to` raising (impossible for
planner-built tasks) would crash the run (`none`). -/
def dryRunLines (output_dir : PyPath) : List ConversionTask → Option (List Event)
  | [] => some []
  | t :: ts =>
    match t.output_path.relativeTo output_dir with
    | none => none
    | some o =>
      match dryRunLines output_dir ts with
      | none => none
      | some ls => some (Event.plannedLine t.relative_path o :: ls)

/-- The conversion section of `main`: the sequential loop when
`workers == 1`, the thread-pool submit-and-tally loop otherwise.
Returns the `(successful, failed)` counters. -/
def mainCounts (w : World) (tasks : List ConversionTask) : Nat × Nat :=
  if w.args.workers = 1 then
    (runSequential w.env w.args.force_zero_order_sh tasks ⟨none⟩).1
  else
    tallyFutures (w.futureResults tasks)

/-- Function `main` of `batch_ply_to_usdz.py`, after argument parsing: validate
the input directory (exit 1 when missing or not a directory), discover
the PLY files (exit 0 immediately when none), plan the tasks, either
print the dry-run listing and exit 0 or run the conversions, and exit 1
exactly when some conversion failed, emitting the final
total/successful/failed summary.  Branches marked unreachable model an
uncaught exception (process dies with a traceback, exit code 1). -/
def mainRun (w : World) : MainResult :=
  if w.inputExists = false then ⟨1, none, []⟩
  else if w.inputIsDir = false then ⟨1, none, []⟩
  else
    let ply_files := find_ply_files w.args.input_dir w.tree
    if ply_files = [] then ⟨0, none, []⟩
    else
      match create_conversion_tasks ply_files w.args.input_dir w.args.output_dir with
      | none => ⟨1, none, []⟩
      | some tasks =>
        if w.args.dry_run then
          match dryRunLines w.args.output_dir tasks with
          | none => ⟨1, none, []⟩
          | some lines => ⟨0, none, lines⟩
        else
          let c := mainCounts w tasks
          ⟨if c.2 > 0 then 1 else 0, some (tasks.length, c.1, c.2),
            if w.args.workers = 1 then
              (runSequential w.env w.args.force_zero_order_sh tasks ⟨none⟩).2.2
            else []⟩

/-- The tasks `main` plans for a world (the planner never actually
raises on `find_ply_files` output; see `create_on_planner_output`). -/
def plannedTasks (w : World) : List ConversionTask :=
  (create_conversion_tasks (find_ply_files w.args.input_dir w.tree)
      w.args.input_dir w.args.output_dir).getD []

/-- Did the future deliver a successful outcome? -/
def FutureRes.isSuccess : FutureRes → Bool
  | FutureRes.value (true, _) => true
  | _ => false

/-- A run environment in which every external call succeeds. -/
def envOk : ConvEnv :=
  { configLoadFails := false, baseConf := ⟨3, 3, 3⟩,
    mkdirFails := fun _ => false, loadFails := fun _ _ => false,
    exportFails := fun _ => false }

/-- A run environment in which loading the input `in/bad.ply` raises and
every other external call succeeds. -/
def envOneBad : ConvEnv :=
  { envOk with loadFails := fun _ p => p.parts = ["in", "bad.ply"] }

/-- A run environment in which composing the configuration raises. -/
def envCfgFail : ConvEnv :=
  { envOk with configLoadFails := true }

/-- Sample tasks under input root `in` and output root `out`. -/
def tA : ConversionTask := taskOfRel ⟨["in"]⟩ ⟨["out"]⟩ ["a.ply"]

/-- A second sample task, in a subdirectory. -/
def tB : ConversionTask := taskOfRel ⟨["in"]⟩ ⟨["out"]⟩ ["sub", "b.ply"]

/-- The sample task whose load `envOneBad` poisons. -/
def tBad : ConversionTask := taskOfRel ⟨["in"]⟩ ⟨["out"]⟩ ["bad.ply"]

/-- A directory tree holding `a.ply`, a subdirectory `sub` with `b.ply`,
and `bad.ply`. -/
def treeABBad : DirTree :=
  ⟨[⟨["a.ply"], true⟩, ⟨["sub"], false⟩, ⟨["sub", "b.ply"], true⟩,
    ⟨["bad.ply"], true⟩]⟩

/-- Batch arguments: roots `in` and `out`, one worker, defaults. -/
def argsSeq : BatchArgs := ⟨⟨["in"]⟩, ⟨["out"]⟩, 1, true, false⟩

/-- A single-worker world over `treeABBad` with `envOneBad`. -/
def worldSeq : World :=
  ⟨argsSeq, true, true, treeABBad, envOneBad, fun _ => []⟩

/-- A two-worker world over `treeABBad` with `envOneBad`; each future
returns the value `convert_single_file` computes for its task on a
fresh worker. -/
def worldMulti : World :=
  ⟨⟨⟨["in"]⟩, ⟨["out"]⟩, 2, true, false⟩, true, true, treeABBad, envOneBad,
    fun ts => ts.map (fun t =>
      FutureRes.value (convert_single_file envOneBad t true ⟨none⟩).1)⟩

/-- A world whose input root exists, is a directory, and is empty. -/
def worldEmpty : World :=
  ⟨argsSeq, true, true, ⟨[]⟩, envOk, fun _ => []⟩

/-- A world whose input root does not exist. -/
def worldMissing : World :=
  ⟨argsSeq, false, false, treeABBad, envOk, fun _ => []⟩

/-- A dry-run world over `treeABBad`. -/
def worldDry : World :=
  ⟨⟨⟨["in"]⟩, ⟨["out"]⟩, 1, true, true⟩, true, true, treeABBad, envOk, fun _ => []⟩

end Batch

namespace PlyToUsd

open Batch

/-- The `--force_zero_order_sh` option of `ply_to_usd.main`:
`action="store_true", default=True`. -/
def parsedForceFlag (argv : List String) : Bool :=
  parseStoreTrue true "--force_zero_order_sh" argv

/-- The conversion steps of `ply_to_usd.main`: load the PLY with the
reduced `init_from_ply_zero_order_sh` variant when the flag is set and
with the standard `init_from_ply` otherwise, then export. -/
def convertEvents (force_zero_order_sh : Bool) (input output : PyPath) : List Event :=
  [Event.loadCall force_zero_order_sh input, Event.exportCall output]

end PlyToUsd

namespace Batch

/-- Unrolling the discovery fold: it appends, to its accumulator, the
matching regular files in walk order. -/
theorem find_ply_files_foldl (ind : PyPath) (es : List FSEntry) (acc : List PyPath) :
    es.foldl
        (fun acc e =>
          if matchesStarPly (nameOfRel e.rel) && e.isFile then
            acc ++ [ind.join ⟨e.rel⟩]
          else acc)
        acc
      = acc ++ (es.filter (fun e => matchesStarPly (nameOfRel e.rel) && e.isFile)).map
          (fun e => ind.join ⟨e.rel⟩) := by
  induction es generalizing acc with
  | nil => simp
  | cons e es ih =>
    rw [List.foldl_cons, List.filter_cons]
    by_cases h : (matchesStarPly (nameOfRel e.rel) && e.isFile) = true
    · rw [if_pos h, if_pos h, ih, List.map_cons]
      simp
    · rw [if_neg h, if_neg h, ih]

/-- Function `find_ply_files` returns exactly the matching regular files, each as
the input root joined with its relative components. -/
theorem find_ply_files_eq (ind : PyPath) (tree : DirTree) :
    find_ply_files ind tree = (plyRels tree).map (fun r => ind.join ⟨r⟩) := by
  unfold find_ply_files
  rw [find_ply_files_foldl]
  simp [plyRels, List.map_map, Function.comp_def]

/-- A list of components is `isPrefixOf` itself followed by anything. -/
theorem isPrefixOf_append_self : ∀ (l q : List String), l.isPrefixOf (l ++ q) = true
  | [], _ => by simp
  | a :: l, q => by simp [List.isPrefixOf, isPrefixOf_append_self l q]

/-- Applying `relative_to` undoes a join with a relative path. -/
theorem relativeTo_join (p q : PyPath) : (p.join q).relativeTo p = some q := by
  cases q with
  | mk qparts =>
    simp [PyPath.join, PyPath.relativeTo, isPrefixOf_append_self, List.drop_left]

/-- On files of the form `input_root / r` — the only files the planner
is ever fed — `create_conversion_tasks` never raises, and it produces
`taskOfRel` for every file, in order. -/
theorem create_of_joins (ind outd : PyPath) :
    ∀ rels : List (List String),
      create_conversion_tasks (rels.map (fun r => ind.join ⟨r⟩)) ind outd =
        some (rels.map (taskOfRel ind outd))
  | [] => rfl
  | r :: rels => by
    simp [create_conversion_tasks, relativeTo_join, create_of_joins ind outd rels,
      taskOfRel]

/-- Planning the discovered files never raises and yields one
`taskOfRel` per kept tree entry. -/
theorem create_on_planner_output (ind outd : PyPath) (tree : DirTree) :
    create_conversion_tasks (find_ply_files ind tree) ind outd =
      some ((plyRels tree).map (taskOfRel ind outd)) := by
  rw [find_ply_files_eq]
  exact create_of_joins ind outd (plyRels tree)

/-- Closed form of `plannedTasks`: `plannedTasks` in closed form. -/
theorem plannedTasks_eq (w : World) :
    plannedTasks w =
      (plyRels w.tree).map (taskOfRel w.args.input_dir w.args.output_dir) := by
  simp [plannedTasks, create_on_planner_output]

/-- From any thread-local slot reachable in a run, the success bit of
`convert_single_file` is determined by the run environment alone, and
the slot stays reachable. -/
theorem convert_single_file_outcome (env : ConvEnv) (task : ConversionTask)
    (flag : Bool) (tl : ThreadLocal) (h : tlInv env tl) :
    (convert_single_file env task flag tl).1.1 = taskOutcome env flag task ∧
      tlInv env (convert_single_file env task flag tl).2.1 := by
  cases htl : tl.cached with
  | some v =>
    have hcf : env.configLoadFails = false := by
      cases hc : env.configLoadFails
      · rfl
      · rw [h hc] at htl
        exact absurd htl (by simp)
    obtain ⟨m, ex, c, b⟩ := v
    cases hm : env.mkdirFails task.output_path.parent <;>
      cases hl : env.loadFails flag task.input_path <;>
        cases hx : env.exportFails task.output_path <;>
          simp [convert_single_file, get_thread_local_objects, htl, taskOutcome,
            hcf, hm, hl, hx, tlInv]
  | none =>
    cases hcf : env.configLoadFails with
    | true =>
      constructor
      · simp [convert_single_file, get_thread_local_objects, htl,
          load_default_config, hcf, taskOutcome]
      · simp [convert_single_file, get_thread_local_objects, htl,
          load_default_config, hcf, tlInv, h]
    | false =>
      cases hm : env.mkdirFails task.output_path.parent <;>
        cases hl : env.loadFails flag task.input_path <;>
          cases hx : env.exportFails task.output_path <;>
            simp [convert_single_file, get_thread_local_objects, htl,
              load_default_config, taskOutcome, hcf, hm, hl, hx, tlInv]

/-- The sequential loop's counters, in closed form: the number of tasks
whose conversion succeeds and the number whose conversion fails. -/
theorem runSequential_counts (env : ConvEnv) (flag : Bool) :
    ∀ (ts : List ConversionTask) (tl : ThreadLocal), tlInv env tl →
      (runSequential env flag ts tl).1 =
        (ts.countP (taskOutcome env flag),
          ts.countP (fun t => !taskOutcome env flag t))
  | [], tl, _ => by simp [runSequential]
  | t :: ts, tl, h => by
    obtain ⟨ho, hinv⟩ := convert_single_file_outcome env t flag tl h
    have ih := runSequential_counts env flag ts
      (convert_single_file env t flag tl).2.1 hinv
    rw [runSequential]
    cases hOut : taskOutcome env flag t <;>
      simp [ho, hOut, ih, List.countP_cons]

/-- Every sequential run accounts for every task exactly once:
`successful + failed` equals the number of tasks. -/
theorem runSequential_total (env : ConvEnv) (flag : Bool) :
    ∀ (ts : List ConversionTask) (tl : ThreadLocal),
      (runSequential env flag ts tl).1.1 + (runSequential env flag ts tl).1.2 =
        ts.length
  | [], _ => by simp [runSequential]
  | t :: ts, tl => by
    have ih := runSequential_total env flag ts (convert_single_file env t flag tl).2.1
    rw [runSequential]
    cases (convert_single_file env t flag tl).1.1 <;> simp <;> omega

/-- A worker produces exactly one outcome per assigned task. -/
theorem workerOutcomes_length (env : ConvEnv) (flag : Bool) :
    ∀ (ts : List ConversionTask) (tl : ThreadLocal),
      (workerOutcomes env flag ts tl).length = ts.length
  | [], _ => rfl
  | t :: ts, tl => by
    rw [workerOutcomes]
    simp [workerOutcomes_length env flag ts]

/-- The success bits of a worker's outcomes are the per-task outcomes
determined by the environment. -/
theorem workerOutcomes_map (env : ConvEnv) (flag : Bool) :
    ∀ (ts : List ConversionTask) (tl : ThreadLocal), tlInv env tl →
      (workerOutcomes env flag ts tl).map Prod.fst = ts.map (taskOutcome env flag)
  | [], _, _ => rfl
  | t :: ts, tl, h => by
    obtain ⟨ho, hinv⟩ := convert_single_file_outcome env t flag tl h
    rw [workerOutcomes]
    simp [ho, workerOutcomes_map env flag ts (convert_single_file env t flag tl).2.1 hinv]

/-- The `as_completed` tally, in closed form. -/
theorem tallyFutures_counts :
    ∀ rs : List FutureRes,
      tallyFutures rs =
        (rs.countP FutureRes.isSuccess, rs.countP (fun r => !r.isSuccess))
  | [] => by simp [tallyFutures]
  | FutureRes.value (true, m) :: rs => by
    simp [tallyFutures, tallyFutures_counts rs, List.countP_cons, FutureRes.isSuccess]
  | FutureRes.value (false, m) :: rs => by
    simp [tallyFutures, tallyFutures_counts rs, List.countP_cons, FutureRes.isSuccess]
  | FutureRes.raised m :: rs => by
    simp [tallyFutures, tallyFutures_counts rs, List.countP_cons, FutureRes.isSuccess]

/-- The `as_completed` tally accounts for every future exactly once. -/
theorem tallyFutures_total :
    ∀ rs : List FutureRes, (tallyFutures rs).1 + (tallyFutures rs).2 = rs.length
  | [] => rfl
  | FutureRes.value (true, m) :: rs => by
    have := tallyFutures_total rs
    simp [tallyFutures]
    omega
  | FutureRes.value (false, m) :: rs => by
    have := tallyFutures_total rs
    simp [tallyFutures]
    omega
  | FutureRes.raised m :: rs => by
    have := tallyFutures_total rs
    simp [tallyFutures]
    omega

/-- The dry-run listing never raises on planner-built tasks, and prints
one line per task: the task's relative path and its output path
relative to the output root. -/
theorem dryRunLines_of_planner (ind outd : PyPath) :
    ∀ rels : List (List String),
      dryRunLines outd (rels.map (taskOfRel ind outd)) =
        some (rels.map (fun r =>
          Event.plannedLine ⟨r⟩ (PyPath.withSuffix ⟨r⟩ ".usdz")))
  | [] => rfl
  | r :: rels => by
    simp [dryRunLines, taskOfRel, relativeTo_join, dryRunLines_of_planner ind outd rels]

/-- Reduction of `mainRun` on a valid, non-empty, non-dry run. -/
theorem mainRun_nondry (w : World) (hex : w.inputExists = true)
    (hdir : w.inputIsDir = true)
    (hne : find_ply_files w.args.input_dir w.tree ≠ [])
    (hdry : w.args.dry_run = false) :
    mainRun w =
      ⟨if (mainCounts w (plannedTasks w)).2 > 0 then 1 else 0,
        some ((plannedTasks w).length, (mainCounts w (plannedTasks w)).1,
          (mainCounts w (plannedTasks w)).2),
        if w.args.workers = 1 then
          (runSequential w.env w.args.force_zero_order_sh (plannedTasks w) ⟨none⟩).2.2
        else []⟩ := by
  have hplan := create_on_planner_output w.args.input_dir w.args.output_dir w.tree
  have hpt := plannedTasks_eq w
  rw [mainRun]
  rw [if_neg (by simp [hex]), if_neg (by simp [hdir]), if_neg hne, hplan, hdry]
  rw [← hpt]
  simp

/-- Reduction of `mainRun` on a valid, non-empty dry run. -/
theorem mainRun_dry (w : World) (hex : w.inputExists = true)
    (hdir : w.inputIsDir = true)
    (hne : find_ply_files w.args.input_dir w.tree ≠ [])
    (hdry : w.args.dry_run = true) :
    mainRun w =
      ⟨0, none,
        (plyRels w.tree).map (fun r =>
          Event.plannedLine ⟨r⟩ (PyPath.withSuffix ⟨r⟩ ".usdz"))⟩ := by
  have hplan := create_on_planner_output w.args.input_dir w.args.output_dir w.tree
  rw [mainRun]
  rw [if_neg (by simp [hex]), if_neg (by simp [hdir]), if_neg hne, hplan, hdry]
  simp [dryRunLines_of_planner w.args.input_dir w.args.output_dir (plyRels w.tree)]

/-- The glob pattern `*.ply` matches exactly the names that literally
end in `.ply`. -/
theorem matchesStarPly_iff (name : String) :
    matchesStarPly name = true ↔
      ∃ stem, String.toList name = stem ++ String.toList ".ply" := by
  unfold matchesStarPly
  rw [List.isSuffixOf_iff_suffix]
  constructor
  · rintro ⟨t, ht⟩
    exact ⟨t, ht.symm⟩
  · rintro ⟨t, ht⟩
    exact ⟨t, ht.symm⟩

/-- C4 counterexample: the file `X.PLY` matches the spec's
case-insensitive suffix comparison, yet `find_ply_files` — whose
`rglob("*.ply")` compares case-sensitively under the POSIX path
flavour — does not discover it. -/
theorem find_ply_files_case_blind_cex :
    caseInsensitivePlyMatch "X.PLY" = true ∧
      find_ply_files ⟨["root"]⟩ ⟨[⟨["X.PLY"], true⟩]⟩ = [] := by
  constructor
  · decide
  · decide

/-- C4 (amended): given an existing input root, the planner enumerates
exactly the regular files under the root whose name ends in the literal,
case-sensitive suffix `.ply`, each reported as the root joined with the
file's relative components. -/
theorem find_ply_files_exact_suffix (ind : PyPath) (tree : DirTree) (p : PyPath) :
    p ∈ find_ply_files ind tree ↔
      ∃ e ∈ tree.entries, e.isFile = true ∧
        (∃ stem, String.toList (nameOfRel e.rel) = stem ++ String.toList ".ply") ∧
        p = ind.join ⟨e.rel⟩ := by
  rw [find_ply_files_eq]
  simp only [plyRels, List.map_map, List.mem_map, List.mem_filter,
    Bool.and_eq_true, Function.comp_def, matchesStarPly_iff]
  constructor
  · rintro ⟨e, ⟨he, hm, hf⟩, rfl⟩
    exact ⟨e, he, hf, hm, rfl⟩
  · rintro ⟨e, he, hf, hm, rfl⟩
    exact ⟨e, ⟨he, hm, hf⟩, rfl⟩

/-- C7: for every discovered input file the planner sets
`relative_path` to the file's path relative to the input root and
`output_path` to the output root joined with `relative_path` with its
extension replaced by `.usdz`; in particular, on the claim's example
tree (`a/x`, `a/b/y`, `z` under the input root, mapped `.ply → .usdz`)
it produces exactly the mirrored output paths. -/
theorem planner_output_paths (ind outd : PyPath) (tree : DirTree) :
    (create_conversion_tasks (find_ply_files ind tree) ind outd =
        some ((plyRels tree).map (taskOfRel ind outd))) ∧
    (∀ r : List String,
        (taskOfRel ind outd r).relative_path = ⟨r⟩ ∧
        (taskOfRel ind outd r).input_path.relativeTo ind = some ⟨r⟩ ∧
        (taskOfRel ind outd r).output_path =
          outd.join (PyPath.withSuffix ⟨r⟩ ".usdz")) ∧
    (create_conversion_tasks
        [⟨["in", "a", "x.ply"]⟩, ⟨["in", "a", "b", "y.ply"]⟩, ⟨["in", "z.ply"]⟩]
        ⟨["in"]⟩ ⟨["out"]⟩ =
      some
        [⟨⟨["in", "a", "x.ply"]⟩, ⟨["out", "a", "x.usdz"]⟩, ⟨["a", "x.ply"]⟩⟩,
         ⟨⟨["in", "a", "b", "y.ply"]⟩, ⟨["out", "a", "b", "y.usdz"]⟩,
           ⟨["a", "b", "y.ply"]⟩⟩,
         ⟨⟨["in", "z.ply"]⟩, ⟨["out", "z.usdz"]⟩, ⟨["z.ply"]⟩⟩]) := by
  refine ⟨create_on_planner_output ind outd tree, ?_, by decide⟩
  intro r
  exact ⟨rfl, relativeTo_join ind ⟨r⟩, rfl⟩

/-- C1: every failure during output-directory creation, PLY load or
USDZ export inside `convert_single_file` is caught and returned as a
`(success = false, message)` outcome, so a batch with one poisoned
input among N good ones completes with exactly N successful outcomes,
1 failed outcome, and one outcome per task. -/
theorem poisoned_task_is_isolated (env : ConvEnv) (flag : Bool)
    (pre post : List ConversionTask) (bad : ConversionTask)
    (hgood : ∀ t ∈ pre ++ post, taskOutcome env flag t = true)
    (hbad : taskOutcome env flag bad = false) :
    (runSequential env flag (pre ++ bad :: post) ⟨none⟩).1 =
        (pre.length + post.length, 1) ∧
      (workerOutcomes env flag (pre ++ bad :: post) ⟨none⟩).length =
        pre.length + 1 + post.length ∧
      (convert_single_file env bad flag ⟨none⟩).1.1 = false := by
  have inv0 : tlInv env (⟨none⟩ : ThreadLocal) := fun _ => rfl
  have hpre : ∀ t ∈ pre, taskOutcome env flag t = true := by
    intro t ht
    exact hgood t (List.mem_append_left _ ht)
  have hpost : ∀ t ∈ post, taskOutcome env flag t = true := by
    intro t ht
    exact hgood t (List.mem_append_right _ ht)
  refine ⟨?_, ?_, ?_⟩
  · rw [runSequential_counts env flag _ _ inv0]
    have h1 : pre.countP (taskOutcome env flag) = pre.length :=
      List.countP_eq_length.mpr (fun a ha => hpre a ha)
    have h2 : post.countP (taskOutcome env flag) = post.length :=
      List.countP_eq_length.mpr (fun a ha => hpost a ha)
    have h3 : pre.countP (fun t => !taskOutcome env flag t) = 0 :=
      List.countP_eq_zero.mpr (fun a ha => by simp [hpre a ha])
    have h4 : post.countP (fun t => !taskOutcome env flag t) = 0 :=
      List.countP_eq_zero.mpr (fun a ha => by simp [hpost a ha])
    simp [List.countP_append, List.countP_cons, h1, h2, h3, h4, hbad]
  · rw [workerOutcomes_length]
    simp
    omega
  · exact (convert_single_file_outcome env bad flag ⟨none⟩ inv0).1.trans hbad

/-- C1 witness: in `envOneBad` the batch `[tA, tBad, tB]` — one
poisoned input among two good ones — ends with 2 successes and 1
failure. -/
theorem poisoned_task_is_isolated_witness :
    (∀ t ∈ [tA] ++ [tB], taskOutcome envOneBad true t = true) ∧
      taskOutcome envOneBad true tBad = false ∧
      (runSequential envOneBad true ([tA] ++ tBad :: [tB]) ⟨none⟩).1 = (2, 1) := by
  refine ⟨by decide, by decide, ?_⟩
  exact (poisoned_task_is_isolated envOneBad true [tA] [tB] tBad
    (by decide) (by decide)).1

/-- C2: at the end of every non-dry run, for any worker count, the
reported summary satisfies `total = successful + failed` with `total`
the number of planned tasks, and every planned task yields exactly one
outcome (the multi-worker hypothesis `hlen` is `as_completed` yielding
exactly one future result — value or unexpected raise — per submitted
task). -/
theorem conversion_totals_balance (w : World)
    (hex : w.inputExists = true) (hdir : w.inputIsDir = true)
    (hne : find_ply_files w.args.input_dir w.tree ≠ [])
    (hdry : w.args.dry_run = false)
    (hlen : (w.futureResults (plannedTasks w)).length = (plannedTasks w).length) :
    ∃ s f, (mainRun w).summary = some ((plannedTasks w).length, s, f) ∧
      s + f = (plannedTasks w).length ∧
      (workerOutcomes w.env w.args.force_zero_order_sh (plannedTasks w)
          ⟨none⟩).length = (plannedTasks w).length := by
  rw [mainRun_nondry w hex hdir hne hdry]
  refine ⟨(mainCounts w (plannedTasks w)).1, (mainCounts w (plannedTasks w)).2,
    rfl, ?_, workerOutcomes_length _ _ _ _⟩
  unfold mainCounts
  by_cases hw : w.args.workers = 1
  · simp only [hw, if_pos]
    exact runSequential_total w.env w.args.force_zero_order_sh (plannedTasks w) ⟨none⟩
  · rw [if_neg hw, tallyFutures_total]
    exact hlen

/-- C2 witness: the two-worker world over `treeABBad` reports the
summary `(3, 2, 1)` with `3 = 2 + 1`. -/
theorem conversion_totals_balance_witness :
    find_ply_files worldMulti.args.input_dir worldMulti.tree ≠ [] ∧
      (∃ s f, (mainRun worldMulti).summary =
          some ((plannedTasks worldMulti).length, s, f) ∧
        s + f = (plannedTasks worldMulti).length ∧
        (workerOutcomes worldMulti.env worldMulti.args.force_zero_order_sh
            (plannedTasks worldMulti) ⟨none⟩).length =
          (plannedTasks worldMulti).length) := by
  refine ⟨by decide, ?_⟩
  exact conversion_totals_balance worldMulti rfl rfl (by decide) rfl (by decide)

/-- C3: the first `get_thread_local_objects` call on a worker thread
constructs and caches the resource bundle (one construction event);
every later call on the same thread — with any value of
`force_zero_order_sh`, including a different one — returns the cached
triple unchanged, with no new construction. -/
theorem worker_resources_cached_once (env : ConvEnv) (f1 f2 : Bool)
    (r : (MixtureOfGaussians × USDZExporter × Conf) × ThreadLocal × List Event)
    (h : get_thread_local_objects env f1 ⟨none⟩ = Except.ok r) :
    r.2.2 = [Event.constructResources] ∧
      r.2.1.cached ≠ none ∧
      get_thread_local_objects env f2 r.2.1 = Except.ok (r.1, r.2.1, []) := by
  cases hcf : env.configLoadFails with
  | true =>
    rw [get_thread_local_objects] at h
    simp [load_default_config, hcf] at h
  | false =>
    rw [get_thread_local_objects] at h
    simp only [load_default_config, hcf] at h
    cases hf1 : f1 <;> rw [hf1] at h <;>
      · simp only [Bool.false_eq_true, if_neg, if_pos, ite_false, ite_true] at h
        rw [Except.ok.injEq] at h
        subst h
        exact ⟨rfl, by simp, rfl⟩

/-- C3 witness: on `envOk`, the first call (flag `true`) constructs and
caches the bundle; a second call with the opposite flag returns the
same triple and leaves the cache untouched. -/
theorem worker_resources_cached_once_witness :
    (get_thread_local_objects envOk true ⟨none⟩ =
        Except.ok ((⟨⟨0, 0, 0⟩⟩, ⟨⟩, ⟨0, 0, 0⟩),
          ⟨some (⟨⟨0, 0, 0⟩⟩, ⟨⟩, ⟨0, 0, 0⟩, true)⟩,
          [Event.constructResources])) ∧
      get_thread_local_objects envOk false
          ⟨some (⟨⟨0, 0, 0⟩⟩, ⟨⟩, ⟨0, 0, 0⟩, true)⟩ =
        Except.ok ((⟨⟨0, 0, 0⟩⟩, ⟨⟩, ⟨0, 0, 0⟩),
          ⟨some (⟨⟨0, 0, 0⟩⟩, ⟨⟩, ⟨0, 0, 0⟩, true)⟩, []) := by
  constructor
  · rfl
  · exact (worker_resources_cached_once envOk true false
      ((⟨⟨0, 0, 0⟩⟩, ⟨⟩, ⟨0, 0, 0⟩),
        ⟨some (⟨⟨0, 0, 0⟩⟩, ⟨⟩, ⟨0, 0, 0⟩, true)⟩,
        [Event.constructResources]) rfl).2.2

/-- C5 counterexample: with configuration composition raising,
`convert_single_file` returns the ordinary per-task
`(success = false, message)` outcome — the construction failure is
caught by the task-level handler, it does not abort the worker — and a
batch of two tasks still executes both, yielding two failed outcomes. -/
theorem construction_failure_not_fatal_cex :
    (convert_single_file envCfgFail tA true ⟨none⟩).1 =
        (false, "❌ a.ply: could not load configuration") ∧
      (runSequential envCfgFail true [tA, tB] ⟨none⟩).1 = (0, 2) := by
  constructor
  · rfl
  · rfl

/-- C5 (amended): a failure while constructing a worker's resources
inside `convert_single_file` is caught by its `try`/`except` and
recovered as an ordinary per-task failed outcome — the worker is not
aborted: the cache stays unset and every subsequent task on the worker
still executes (each also failing while the failure persists). -/
theorem construction_failure_per_task_outcome (env : ConvEnv) (flag : Bool)
    (task : ConversionTask) (tl : ThreadLocal) (ts : List ConversionTask)
    (hcf : env.configLoadFails = true) (hnone : tl.cached = none) :
    (convert_single_file env task flag tl).1.1 = false ∧
      (convert_single_file env task flag tl).2.1 = tl ∧
      (runSequential env flag ts tl).1 = (0, ts.length) := by
  have hinv : tlInv env tl := fun _ => hnone
  have hall : ∀ t, taskOutcome env flag t = false := by
    intro t
    simp [taskOutcome, hcf]
  refine ⟨?_, ?_, ?_⟩
  · simp [convert_single_file, get_thread_local_objects, hnone,
      load_default_config, hcf]
  · simp [convert_single_file, get_thread_local_objects, hnone,
      load_default_config, hcf]
  · rw [runSequential_counts env flag ts tl hinv]
    have h1 : ts.countP (taskOutcome env flag) = 0 :=
      List.countP_eq_zero.mpr (fun a _ => by simp [hall a])
    have h2 : ts.countP (fun t => !taskOutcome env flag t) = ts.length :=
      List.countP_eq_length.mpr (fun a _ => by simp [hall a])
    rw [h1, h2]

/-- C5 witness: the amended behaviour on `envCfgFail` with the batch
`[tA, tB]`. -/
theorem construction_failure_per_task_outcome_witness :
    envCfgFail.configLoadFails = true ∧
      (convert_single_file envCfgFail tA true ⟨none⟩).1.1 = false ∧
      (runSequential envCfgFail true [tA, tB] ⟨none⟩).1 = (0, 2) := by
  have h := construction_failure_per_task_outcome envCfgFail true tA ⟨none⟩
    [tA, tB] rfl rfl
  exact ⟨rfl, h.1, h.2.2⟩

/-- C6 counterexample: on an existing, empty input directory the run
exits 0 — but without emitting any summary: `main` exits right after
discovery, before the summary section, so no `{total:0, successful:0,
failed:0}` block is reported. -/
theorem empty_batch_no_summary_cex :
    (mainRun worldEmpty).exitCode = 0 ∧
      (mainRun worldEmpty).summary = none ∧
      (mainRun worldEmpty).summary ≠ some (0, 0, 0) := by
  refine ⟨rfl, rfl, by decide⟩

/-- C6 (amended): the exit code is 1 when the input directory is
missing or not a directory; on an empty match set the run exits 0
without emitting a summary; a valid dry run exits 0; and a non-dry run
exits 1 exactly when at least one task failed and 0 otherwise (hence 0
when all tasks succeed). -/
theorem exit_code_policy (w : World) :
    (w.inputExists = false → (mainRun w).exitCode = 1) ∧
    (w.inputExists = true → w.inputIsDir = false → (mainRun w).exitCode = 1) ∧
    (w.inputExists = true → w.inputIsDir = true →
      find_ply_files w.args.input_dir w.tree = [] →
      mainRun w = ⟨0, none, []⟩) ∧
    (w.inputExists = true → w.inputIsDir = true →
      find_ply_files w.args.input_dir w.tree ≠ [] → w.args.dry_run = true →
      (mainRun w).exitCode = 0) ∧
    (w.inputExists = true → w.inputIsDir = true →
      find_ply_files w.args.input_dir w.tree ≠ [] → w.args.dry_run = false →
      (mainRun w).exitCode =
        if (mainCounts w (plannedTasks w)).2 > 0 then 1 else 0) := by
  refine ⟨?_, ?_, ?_, ?_, ?_⟩
  · intro h
    simp [mainRun, h]
  · intro hex h
    simp [mainRun, hex, h]
  · intro hex hdir hempty
    simp [mainRun, hex, hdir, hempty]
  · intro hex hdir hne hdry
    rw [mainRun_dry w hex hdir hne hdry]
  · intro hex hdir hne hdry
    rw [mainRun_nondry w hex hdir hne hdry]

/-- C6 witness: the four outcomes at concrete worlds — missing input
root exits 1; empty root exits 0 without a summary; a dry run exits 0;
a run with one failing task exits 1. -/
theorem exit_code_policy_witness :
    (mainRun worldMissing).exitCode = 1 ∧
      mainRun worldEmpty = ⟨0, none, []⟩ ∧
      (mainRun worldDry).exitCode = 0 ∧
      (mainRun worldSeq).exitCode = 1 := by
  refine ⟨(exit_code_policy worldMissing).1 rfl,
    (exit_code_policy worldEmpty).2.2.1 rfl rfl (by decide),
    (exit_code_policy worldDry).2.2.2.1 rfl rfl (by decide) rfl, ?_⟩
  have h := (exit_code_policy worldSeq).2.2.2.2 rfl rfl (by decide) rfl
  rw [h]
  decide

/-- C8: in dry-run mode the program prints one planned
`relative_path → output relative path` line per planned task and exits
0, with no resource construction, no mkdir, no load and no export —
zero converter calls and zero filesystem writes. -/
theorem dry_run_effect_free (w : World) (hex : w.inputExists = true)
    (hdir : w.inputIsDir = true)
    (hne : find_ply_files w.args.input_dir w.tree ≠ [])
    (hdry : w.args.dry_run = true) :
    (mainRun w).exitCode = 0 ∧
      (mainRun w).summary = none ∧
      (mainRun w).events =
        (plannedTasks w).map (fun t =>
          Event.plannedLine t.relative_path (t.relative_path.withSuffix ".usdz")) ∧
      (mainRun w).events.length = (plannedTasks w).length ∧
      (mainRun w).events.countP Event.isConversionEffect = 0 := by
  rw [mainRun_dry w hex hdir hne hdry]
  refine ⟨rfl, rfl, ?_, ?_, ?_⟩
  · simp [plannedTasks_eq, List.map_map, Function.comp_def, taskOfRel]
  · simp [plannedTasks_eq]
  · rw [List.countP_eq_zero]
    intro e he
    simp only [List.mem_map] at he
    obtain ⟨r, _, rfl⟩ := he
    simp [Event.isConversionEffect]

/-- C8 witness: the dry run over `treeABBad` exits 0 and its event
trace contains no conversion effect. -/
theorem dry_run_effect_free_witness :
    find_ply_files worldDry.args.input_dir worldDry.tree ≠ [] ∧
      (mainRun worldDry).exitCode = 0 ∧
      (mainRun worldDry).events.length = (plannedTasks worldDry).length ∧
      (mainRun worldDry).events.countP Event.isConversionEffect = 0 := by
  have h := dry_run_effect_free worldDry rfl rfl (by decide) rfl
  exact ⟨by decide, h.1, h.2.2.2.1, h.2.2.2.2⟩

/-- The success bits of the outcomes all workers produce, joined, are
the per-task outcomes of the tasks they were assigned, joined. -/
theorem sched_outcomes_map (env : ConvEnv) (flag : Bool) :
    ∀ sched : List (List ConversionTask),
      ((sched.map (fun ts => workerOutcomes env flag ts ⟨none⟩)).flatten).map Prod.fst =
        (sched.flatten).map (taskOutcome env flag)
  | [] => rfl
  | ts :: sched => by
    have inv0 : tlInv env (⟨none⟩ : ThreadLocal) := fun _ => rfl
    simp only [List.map_cons, List.flatten, List.map_append,
      sched_outcomes_map env flag sched,
      workerOutcomes_map env flag ts ⟨none⟩ inv0]

/-- Tallying outcome values is counting their success bits. -/
theorem tallyFutures_of_values :
    ∀ l : List (Bool × String),
      tallyFutures (l.map FutureRes.value) =
        ((l.map Prod.fst).countP id, (l.map Prod.fst).countP (fun b => !b))
  | [] => rfl
  | (true, m) :: l => by
    simp [tallyFutures, tallyFutures_of_values l, List.countP_cons]
  | (false, m) :: l => by
    simp [tallyFutures, tallyFutures_of_values l, List.countP_cons]

/-- C9: the multi-worker run — any partition of the task set among
workers, outcomes consumed in any completion order — tallies the same
`(successful, failed)` pair as the single-worker run over the same
task set: the outcome multiset and the final counts are independent of
scheduling and completion order. -/
theorem summary_order_independent (env : ConvEnv) (flag : Bool)
    (tasks : List ConversionTask) (sched : List (List ConversionTask))
    (order : List (Bool × String))
    (hs : sched.flatten.Perm tasks)
    (ho : order.Perm
        ((sched.map (fun ts => workerOutcomes env flag ts ⟨none⟩)).flatten)) :
    tallyFutures (order.map FutureRes.value) =
      (runSequential env flag tasks ⟨none⟩).1 := by
  have inv0 : tlInv env (⟨none⟩ : ThreadLocal) := fun _ => rfl
  rw [tallyFutures_of_values, runSequential_counts env flag tasks ⟨none⟩ inv0]
  have hperm : (order.map Prod.fst).Perm (tasks.map (taskOutcome env flag)) := by
    have h1 := ho.map Prod.fst
    rw [sched_outcomes_map env flag sched] at h1
    exact h1.trans (hs.map (taskOutcome env flag))
  have e1 : (order.map Prod.fst).countP id =
      tasks.countP (taskOutcome env flag) := by
    rw [hperm.countP_eq]
    simp [List.countP_map]
  have e2 : (order.map Prod.fst).countP (fun b => !b) =
      tasks.countP (fun t => !taskOutcome env flag t) := by
    rw [hperm.countP_eq]
    simp [List.countP_map, Function.comp_def]
  rw [e1, e2]

/-- C9 witness: on `envOneBad`, the schedule `[[tA, tB], [tBad]]` with
completion order "bad first" tallies `(2, 1)`, the single-worker
counts for `[tA, tBad, tB]`. -/
theorem summary_order_independent_witness :
    (([[tA, tB], [tBad]] : List (List ConversionTask)).flatten.Perm
        [tA, tBad, tB]) ∧
      tallyFutures
          (([(false, "❌ bad.ply: load failed"),
             (true, "✅ a.ply -> a.usdz"),
             (true, "✅ sub/b.ply -> b.usdz")].map FutureRes.value)) =
        (runSequential envOneBad true [tA, tBad, tB] ⟨none⟩).1 := by
  refine ⟨by decide, ?_⟩
  exact summary_order_independent envOneBad true [tA, tBad, tB]
    [[tA, tB], [tBad]]
    [(false, "❌ bad.ply: load failed"),
     (true, "✅ a.ply -> a.usdz"),
     (true, "✅ sub/b.ply -> b.usdz")]
    (by decide) (by decide)

/-- The destination of a `store_true` option whose default is `True` is
`True` on every command line. -/
theorem parseStoreTrue_default_true (flagName : String) :
    ∀ argv : List String, parseStoreTrue true flagName argv = true := by
  intro argv
  induction argv with
  | nil => rfl
  | cons a argv ih =>
    show List.foldl _ (if a = flagName then true else true) argv = true
    rw [ite_self]
    exact ih

/-- With the reduced-feature flag set, `convert_single_file` never
invokes the standard `init_from_ply` load variant. -/
theorem convert_single_file_no_standard_load (env : ConvEnv)
    (task : ConversionTask) (tl : ThreadLocal) :
    ((convert_single_file env task true tl).2.2).countP Event.isStandardLoad = 0 := by
  cases htl : tl.cached with
  | some v =>
    obtain ⟨m, ex, c, b⟩ := v
    cases hm : env.mkdirFails task.output_path.parent <;>
      cases hl : env.loadFails true task.input_path <;>
        cases hx : env.exportFails task.output_path <;>
          simp [convert_single_file, get_thread_local_objects, htl, hm, hl, hx,
            Event.isStandardLoad, List.countP_cons]
  | none =>
    cases hcf : env.configLoadFails <;>
      cases hm : env.mkdirFails task.output_path.parent <;>
        cases hl : env.loadFails true task.input_path <;>
          cases hx : env.exportFails task.output_path <;>
            simp [convert_single_file, get_thread_local_objects, htl,
              load_default_config, hcf, hm, hl, hx, Event.isStandardLoad,
              List.countP_cons]

/-- C10: in both CLI entry points `--force_zero_order_sh` is a
`store_true` flag with default `True`, so it parses to `True` on every
command line; consequently every conversion takes the reduced
zero-order-SH load path, and the standard `init_from_ply` variant is
unreachable from either CLI. -/
theorem force_zero_order_sh_always_true (argv : List String) (env : ConvEnv)
    (task : ConversionTask) (tl : ThreadLocal) (input output : PyPath) :
    batchForceFlag argv = true ∧
      PlyToUsd.parsedForceFlag argv = true ∧
      ((convert_single_file env task (batchForceFlag argv) tl).2.2).countP
          Event.isStandardLoad = 0 ∧
      (PlyToUsd.convertEvents (PlyToUsd.parsedForceFlag argv)
          input output).countP Event.isStandardLoad = 0 := by
  have hb : batchForceFlag argv = true :=
    parseStoreTrue_default_true "--force_zero_order_sh" argv
  have hp : PlyToUsd.parsedForceFlag argv = true :=
    parseStoreTrue_default_true "--force_zero_order_sh" argv
  refine ⟨hb, hp, ?_, ?_⟩
  · rw [hb]
    exact convert_single_file_no_standard_load env task tl
  · rw [hp]
    simp [PlyToUsd.convertEvents, Event.isStandardLoad, List.countP_cons]

end Batch
